import Mathlib

/-!
Verification of the two example connectors in this repository
(`stripe_events_connector/connector.py` and
`examples/source_examples/figma/connector.py`) against their
natural-language specification.

The Python connectors are shallowly embedded: each `update` generator
becomes a Lean function from its inputs (configuration, state, and a
scripted model of the external HTTP API) to the timeline of side effects
it produces — network fetches, `upsert` operations and `checkpoint`
operations — together with the terminal error, if any.  Python dicts
become association lists, Python date parsing becomes an abstract
`String → Option Int` parameter (an integer stands for a point in time),
and Python truthiness of strings (`if last_event_id:`) is modelled
explicitly (`none` and `some ""` are both falsy).
-/

namespace Connectors

/-- JSON-like values carried in emitted records. -/
inductive Value where
  | str (s : String)
  | int (n : Int)
  | bool (b : Bool)
  | null
  | dict (fields : List (String × Value))

/-- A flat record passed to an upsert: column name to value. -/
abbrev Record := List (String × Value)

/-- Connector state, a string-keyed dictionary of cursor strings. -/
abbrev StateMap := List (String × String)

/-- The two operations a connector yields to the host framework. -/
inductive Op where
  | upsert (table : String) (data : Record)
  | checkpoint (state : StateMap)

/-- One observable step of an `update` run: an outbound HTTP fetch or a
yielded operation. -/
inductive Tr where
  | fetch (url : String)
  | op (o : Op)

/-- Terminal outcomes of a run that does not finish normally. -/
inductive Err where
  | configError
  | httpError
  | parseError
  | apiExhausted
deriving DecidableEq, Repr

/-- Dictionary update `m[k] = v`: the key now maps to `v`, other keys are
unchanged. -/
def setKey (m : StateMap) (k v : String) : StateMap :=
  (k, v) :: m.filter (fun p => !(p.1 == k))

/-- Python truthiness of an optional string: `None` and `""` are falsy. -/
def truthy : Option String → Bool
  | some s => !(s == "")
  | none => false

/-- Render an optional string the way Python string-formats it. -/
def showOptS : Option String → String
  | some s => s
  | none => "None"

/-- Render an optional integer the way Python string-formats it. -/
def showOptI : Option Int → String
  | some n => toString n
  | none => "None"

/-- Value of an optional JSON string field in a record. -/
def optStrVal : Option String → Value
  | some s => .str s
  | none => .null

/-- Operations of a trace, with the fetches dropped. -/
def opsOf (t : List Tr) : List Op :=
  t.filterMap fun x => match x with | .op o => some o | .fetch _ => none

/-- Trace entry is a checkpoint operation. -/
def isCp : Tr → Bool
  | .op (.checkpoint _) => true
  | _ => false

/-- Trace entry is an upsert operation. -/
def isUp : Tr → Bool
  | .op (.upsert _ _) => true
  | _ => false

/-- Trace entry is an outbound network fetch. -/
def isFetch : Tr → Bool
  | .fetch _ => true
  | _ => false

/-- Number of checkpoints in a trace. -/
def cpCount (t : List Tr) : Nat := t.countP isCp

/-- Number of upserts in a trace. -/
def upCount (t : List Tr) : Nat := t.countP isUp

/-- Number of network fetches in a trace. -/
def fetchCount (t : List Tr) : Nat := t.countP isFetch

/-- States carried by the checkpoints of a trace, in order. -/
def cpStates (t : List Tr) : List StateMap :=
  t.filterMap fun x => match x with | .op (.checkpoint s) => some s | _ => none

/-- Records carried by the upserts of a trace, in order. -/
def upRecords (t : List Tr) : List Record :=
  t.filterMap fun x => match x with | .op (.upsert _ r) => some r | _ => none

/-- Cursor (`last_event_id`) of the last checkpoint of a trace, if any. -/
def lastCpCursor (t : List Tr) : Option String :=
  match (cpStates t).getLast? with
  | some s => List.lookup "last_event_id" s
  | none => none

/-- Primary-key (`id`) value of the last upserted record of a trace. -/
def lastUpId (t : List Tr) : Option Value :=
  match (upRecords t).getLast? with
  | some r => List.lookup "id" r
  | none => none

/-- A table descriptor as returned by a connector `schema` callback. -/
structure TableDef where
  table : String
  primary_key : List String
  columns : List (String × String)

/-- Primary-key columns a schema declares for a table. -/
def primaryKeyOf (tables : List TableDef) (t : String) : List String :=
  match tables.find? (fun td => td.table == t) with
  | some td => td.primary_key
  | none => []

end Connectors

namespace Stripe

open Connectors

/-- Configuration dictionary of the Stripe connector, restricted to the
keys the code reads (`stripe_api_key`, `start_date`); `none` means the
key is absent. -/
structure SConfig where
  stripe_api_key : Option String
  start_date : Option String

/-- A Stripe event as surfaced by `stripe.Event.list`; `data` is always a
Stripe object (hence a dict after `to_dict_recursive`) when present,
`request` may be an object or a bare id string. -/
structure SEvent where
  id : String
  etype : String
  api_version : Option String
  created : Int
  data : Option (List (String × Value))
  livemode : Bool
  pending_webhooks : Int
  request : Option Value

/-- One page of `stripe.Event.list` results. -/
structure SPage where
  data : List SEvent
  has_more : Bool

/-- Request parameters the update loop maintains. -/
structure SParams where
  limit : Nat
  starting_after : Option String
  created_gte : Option Int

/-- Schema of the Stripe connector, from `schema` in
`stripe_events_connector/connector.py`. -/
def stripeSchema (_ : SConfig) : List TableDef :=
  [{ table := "stripe_events",
     primary_key := ["id"],
     columns :=
       [("id", "STRING"), ("type", "STRING"), ("api_version", "STRING"),
        ("created", "UTC_DATETIME"), ("data", "JSON"),
        ("livemode", "BOOLEAN"), ("pending_webhooks", "INT"),
        ("request", "JSON")] }]

/-- Abstract rendering of
`datetime.fromtimestamp(ts, tz=utc).isoformat()`. -/
def isoOfTimestamp (t : Int) : String := toString t

/-- Description of a `stripe.Event.list` call, recorded in the trace. -/
def paramsUrl (p : SParams) : String :=
  "stripe.Event.list limit=" ++ toString p.limit ++
    " starting_after=" ++ showOptS p.starting_after ++
    " created.gte=" ++ showOptI p.created_gte

/-- The record built for one event in the body of the update loop
(`event.to_dict()` plus the `created`/`data`/`request` fix-ups of lines
66-82 of the connector). -/
def eventRecord (e : SEvent) : Record :=
  [("id", .str e.id),
   ("type", .str e.etype),
   ("api_version", optStrVal e.api_version),
   ("created", .str (isoOfTimestamp e.created)),
   ("data", .dict (e.data.getD [])),
   ("livemode", .bool e.livemode),
   ("pending_webhooks", .int e.pending_webhooks),
   ("request", match e.request with | some v => v | none => .null)]

/-- Final value of `latest_event_id_in_batch` after the `for event in
events.data` loop: the id of the last event, if any. -/
def lastId : List SEvent → Option String
  | [] => none
  | [e] => some e.id
  | _ :: rest => lastId rest

/-- The `while has_more` loop of the Stripe `update`.  The scripted API
is the list of successive `stripe.Event.list` responses; `.error` is a
raised exception (re-raised by the connector after logging).  Returns
the emitted trace, the state dictionary after its in-place mutations,
the final `latest_event_id_in_batch`, and the terminal error, if any.
`apiExhausted` marks a run whose script ends while the loop still wants
another page; no theorem relies on that branch. -/
def stripeLoop (api : List (Except Unit SPage)) (params : SParams)
    (state : StateMap) (latest : Option String) :
    List Tr × StateMap × Option String × Option Err :=
  match api with
  | [] => ([], state, latest, some .apiExhausted)
  | resp :: rest =>
    let ftr := Tr.fetch (paramsUrl params)
    match resp with
    | .error _ => ([ftr], state, latest, some .httpError)
    | .ok page =>
      if page.data.isEmpty then
        ([ftr], state, latest, none)
      else
        let ups := page.data.map fun e =>
          Tr.op (.upsert "stripe_events" (eventRecord e))
        let latest1 := match lastId page.data with
          | some i => some i
          | none => latest
        match latest1 with
        | some l =>
          if l == "" then
            if page.has_more then
              let r := stripeLoop rest params state latest1
              (ftr :: ups ++ r.1, r.2.1, r.2.2.1, r.2.2.2)
            else
              (ftr :: ups, state, latest1, none)
          else
            let st := setKey state "last_event_id" l
            let cp := Tr.op (.checkpoint st)
            let params1 := { params with starting_after := some l }
            if page.has_more then
              let r := stripeLoop rest params1 st latest1
              (ftr :: ups ++ cp :: r.1, r.2.1, r.2.2.1, r.2.2.2)
            else
              (ftr :: ups ++ [cp], st, latest1, none)
        | none =>
          if page.has_more then
            let r := stripeLoop rest params state latest
            (ftr :: ups ++ r.1, r.2.1, r.2.2.1, r.2.2.2)
          else
            (ftr :: ups, state, latest, none)

/-- The initial request parameters of the Stripe `update` (lines 34-48
of the connector): resume from the stored cursor when truthy, otherwise
apply the configured start date, a failed parse of which is caught,
logged and ignored. -/
def stripeParams (parseDate : String → Option Int) (config : SConfig)
    (state : StateMap) : SParams :=
  let last_event_id := List.lookup "last_event_id" state
  let params0 : SParams := ⟨100, none, none⟩
  if truthy last_event_id then
    { params0 with starting_after := last_event_id }
  else
    match config.start_date with
    | some sd =>
      if sd == "" then params0
      else
        match parseDate sd with
        | some t => { params0 with created_gte := some t }
        | none => params0
    | none => params0

/-- The Stripe connector `update` from
`stripe_events_connector/connector.py`, over a scripted API.
`parseDate` models `datetime.fromisoformat` composed with the
`"Z" → "+00:00"` replacement and `.timestamp()`; `none` is a raised
`ValueError`. -/
def stripeUpdate (parseDate : String → Option Int) (config : SConfig)
    (state : StateMap) (api : List (Except Unit SPage)) :
    List Tr × Option Err :=
  match config.stripe_api_key with
  | none => ([], some .configError)
  | some _ =>
    let r := stripeLoop api (stripeParams parseDate config state) state none
    match r.2.2.2 with
    | some e => (r.1, some e)
    | none =>
      match r.2.2.1 with
      | some l =>
        if l == "" then (r.1, none)
        else
          (r.1 ++ [Tr.op (.checkpoint (setKey r.2.1 "last_event_id" l))],
           none)
      | none => (r.1, none)

end Stripe

namespace Figma

open Connectors

/-- Configuration dictionary of the Figma connector, restricted to the
keys the code reads; `none` means the key is absent. -/
structure FConfig where
  figma_api_token : Option String
  team_id : Option String

/-- One entry of the `projects` array of the team-projects response. -/
structure FProject where
  id : Option String
  name : Option String

/-- One entry of the `files` array of a project-files response. -/
structure FFile where
  key : Option String
  name : Option String
  last_modified : Option String
  thumbnail_url : Option String
  version : Option String

/-- Scripted Figma API: the team-projects response and, per project id,
the project-files response.  `.error` is a `raise_for_status` failure;
the inner `Option` is the presence of the `projects` / `files` key in
the response JSON (the code defaults a missing key to `[]`). -/
structure FigmaApi where
  projects : Except Unit (Option (List FProject))
  files : Option String → Except Unit (Option (List FFile))

/-- Schema of the Figma connector, from `schema` in
`examples/source_examples/figma/connector.py`. -/
def figmaSchema (_ : FConfig) : List TableDef :=
  [{ table := "projects",
     primary_key := ["id"],
     columns := [("id", "STRING"), ("name", "STRING")] },
   { table := "files",
     primary_key := ["key"],
     columns :=
       [("key", "STRING"), ("name", "STRING"),
        ("last_modified", "UTC_DATETIME"), ("thumbnail_url", "STRING"),
        ("version", "STRING"), ("project_id", "STRING")] }]

/-- The record upserted into `projects` for one project. -/
def projectRecord (p : FProject) : Record :=
  [("id", optStrVal p.id), ("name", optStrVal p.name)]

/-- The record upserted into `files` for one file of a project. -/
def fileRecord (pid : Option String) (f : FFile) : Record :=
  [("key", optStrVal f.key),
   ("name", optStrVal f.name),
   ("last_modified", optStrVal f.last_modified),
   ("thumbnail_url", optStrVal f.thumbnail_url),
   ("version", optStrVal f.version),
   ("project_id", optStrVal pid)]

/-- The `for file in files_data.get("files", [])` loop for one project:
skip a file when a last-synced cursor exists, the file has a truthy
`last_modified`, and its parsed time is not after the cursor; a failed
parse of a truthy `last_modified` raises (`ValueError` propagates out of
the generator). -/
def figmaFiles (parseDate : String → Option Int) (lsdt : Option Int)
    (pid : Option String) : List FFile → List Tr × Option Err
  | [] => ([], none)
  | f :: rest =>
    let emit := Tr.op (.upsert "files" (fileRecord pid f))
    match lsdt, f.last_modified with
    | some cur, some lm =>
      if lm == "" then
        let r := figmaFiles parseDate lsdt pid rest
        (emit :: r.1, r.2)
      else
        match parseDate lm with
        | none => ([], some .parseError)
        | some t =>
          if t ≤ cur then
            figmaFiles parseDate lsdt pid rest
          else
            let r := figmaFiles parseDate lsdt pid rest
            (emit :: r.1, r.2)
    | _, _ =>
      let r := figmaFiles parseDate lsdt pid rest
      (emit :: r.1, r.2)

/-- The `for project in projects_data.get("projects", [])` loop: upsert
the project, fetch its files (an HTTP error aborts the run), then emit
its non-skipped files. -/
def figmaProjects (parseDate : String → Option Int) (api : FigmaApi)
    (lsdt : Option Int) : List FProject → List Tr × Option Err
  | [] => ([], none)
  | p :: rest =>
    let up := Tr.op (.upsert "projects" (projectRecord p))
    let furl := "https://api.figma.com/v1/projects/" ++ showOptS p.id ++
      "/files"
    match api.files p.id with
    | .error _ => ([up, Tr.fetch furl], some .httpError)
    | .ok fj =>
      let fr := figmaFiles parseDate lsdt p.id (fj.getD [])
      match fr.2 with
      | some e => (up :: Tr.fetch furl :: fr.1, some e)
      | none =>
        let rr := figmaProjects parseDate api lsdt rest
        (up :: Tr.fetch furl :: (fr.1 ++ rr.1), rr.2)

/-- Body of the Figma `update` after configuration validation and cursor
parsing: fetch the team's projects, run the project loop, then emit the
single final checkpoint `{"last_synced": now}`. -/
def figmaBody (parseDate : String → Option Int) (now : String)
    (team : String) (api : FigmaApi) (lsdt : Option Int) :
    List Tr × Option Err :=
  let purl := "https://api.figma.com/v1/teams/" ++ team ++ "/projects"
  match api.projects with
  | .error _ => ([Tr.fetch purl], some .httpError)
  | .ok pj =>
    let pr := figmaProjects parseDate api lsdt (pj.getD [])
    match pr.2 with
    | some e => (Tr.fetch purl :: pr.1, some e)
    | none =>
      (Tr.fetch purl :: pr.1 ++
        [Tr.op (.checkpoint [("last_synced", now)])], none)

/-- The Figma connector `update` from
`examples/source_examples/figma/connector.py`, over a scripted API.
`now` is the value of `datetime.utcnow()...isoformat() + "Z"` of this
run; `parseDate` models `datetime.fromisoformat` composed with the
`"Z" → "+00:00"` replacement, `none` being a raised `ValueError`
(uncaught here, unlike the Stripe start-date parse). -/
def figmaUpdate (parseDate : String → Option Int) (now : String)
    (config : FConfig) (state : StateMap) (api : FigmaApi) :
    List Tr × Option Err :=
  match config.figma_api_token, config.team_id with
  | none, _ => ([], some .configError)
  | _, none => ([], some .configError)
  | some tok, some tid =>
    if tok == "" || tid == "" then ([], some .configError)
    else
      match List.lookup "last_synced" state with
      | some s =>
        if s == "" then figmaBody parseDate now tid api none
        else
          match parseDate s with
          | none => ([], some .parseError)
          | some t => figmaBody parseDate now tid api (some t)
      | none => figmaBody parseDate now tid api none

/-- Concrete Figma fixtures for witnesses and counterexamples. -/
def fProj1 : FProject := ⟨some "p1", some "Alpha"⟩

def fFileStale : FFile := ⟨some "k1", some "Old design", some "5", none, none⟩

def fFileFresh : FFile := ⟨some "k2", some "New design", some "20", none, none⟩

def goodFigmaApi : FigmaApi :=
  ⟨.ok (some [fProj1]), fun _ => .ok (some [fFileStale, fFileFresh])⟩

def emptyFigmaApi : FigmaApi := ⟨.ok (some []), fun _ => .ok (some [])⟩

def noIdFigmaApi : FigmaApi := ⟨.ok (some [⟨none, none⟩]), fun _ => .ok (some [])⟩

def quietFigmaApi : FigmaApi := ⟨.ok none, fun _ => .ok none⟩

end Figma

namespace Connectors

/-- An upsert into `table` whose record's `last_modified` column parses
to a time at or before the cursor `cur`: the kind of record the spec
says is never emitted once a last-synced cursor is stored. -/
def staleFileUp (parse : String → Option Int) (cur : Int) : Tr → Bool
  | .op (.upsert tbl r) =>
    tbl == "files" &&
      (match List.lookup "last_modified" r with
       | some (.str lm) =>
         (match parse lm with
          | some t => decide (t ≤ cur)
          | none => false)
       | _ => false)
  | _ => false

/-- The schema-declared primary-key columns of an upsert are present in
its record with a non-empty string value; non-upsert entries pass. -/
def pkOkTr (tables : List TableDef) : Tr → Bool
  | .op (.upsert tbl r) =>
    (primaryKeyOf tables tbl).all fun k =>
      match List.lookup k r with
      | some (.str s) => !(s == "")
      | _ => false
  | _ => true

/-- The `data` column of an upsert record is a dictionary. -/
def dataDictTr : Tr → Bool
  | .op (.upsert _ r) =>
    (match List.lookup "data" r with
     | some (.dict _) => true
     | _ => false)
  | _ => true

/-- Primary-key string carried in the `id` column of a record. -/
def upsertIdVals (r : Record) : List String :=
  match List.lookup "id" r with
  | some (.str s) => [s]
  | _ => []

/-- All `id` strings of the upserts of a trace, in order. -/
def trIds : List Tr → List String
  | [] => []
  | .op (.upsert _ r) :: rest => upsertIdVals r ++ trIds rest
  | .op (.checkpoint _) :: rest => trIds rest
  | .fetch _ :: rest => trIds rest

/-- Every checkpoint's `last_event_id` cursor equals the `id` of some
upsert emitted strictly earlier in the trace; `seen` carries the ids
emitted before the trace under inspection. -/
def cpOk (seen : List String) : List Tr → Bool
  | [] => true
  | .op (.upsert _ r) :: rest => cpOk (seen ++ upsertIdVals r) rest
  | .op (.checkpoint s) :: rest =>
    ((match List.lookup "last_event_id" s with
      | some c => decide (c ∈ seen)
      | none => false) : Bool) && cpOk seen rest
  | .fetch _ :: rest => cpOk seen rest

end Connectors

namespace Stripe

open Connectors

/-- Scripted API for a sync of the given pages: every page reports
`has_more = true` except the last. -/
def mkStripeApi : List (List SEvent) → List (Except Unit SPage)
  | [] => []
  | [p] => [.ok ⟨p, false⟩]
  | p :: q :: rest => .ok ⟨p, true⟩ :: mkStripeApi (q :: rest)

/-- Id of the very last event of the last page, if any. -/
def lastPagesId (pages : List (List SEvent)) : Option String :=
  match pages.getLast? with
  | some p => lastId p
  | none => none

/-- A minimal Stripe event with the given id, used as a concrete test
fixture. -/
def mkEvent (i : String) : SEvent :=
  ⟨i, "account.updated", none, 0, none, false, 0, none⟩

/-- Concrete two-page fixture for the paginated-sync theorems. -/
def c1pages : List (List SEvent) :=
  [[mkEvent "evt_1", mkEvent "evt_2"], [mkEvent "evt_3"]]

/-- Scripted single-page API of the worked example of the spec. -/
def c2api : List (Except Unit SPage) :=
  [.ok ⟨[mkEvent "evt_6", mkEvent "evt_7"], false⟩]

/-- Prior state of the worked example of the spec. -/
def c2state : StateMap := [("last_event_id", "evt_5")]

end Stripe

namespace Connectors

/-- Concrete stand-in for the ISO-8601 date parser in test fixtures: a
finite table of date strings and their timestamps; anything else fails
to parse, as `datetime.fromisoformat` does on malformed input. -/
def parseIntDate (s : String) : Option Int :=
  if s = "5" then some 5
  else if s = "10" then some 10
  else if s = "20" then some 20
  else if s = "100" then some 100
  else none

end Connectors

namespace Connectors

lemma cpCount_append (a b : List Tr) :
    cpCount (a ++ b) = cpCount a + cpCount b :=
  List.countP_append _ _ _

lemma upCount_append (a b : List Tr) :
    upCount (a ++ b) = upCount a + upCount b :=
  List.countP_append _ _ _

lemma cpStates_append (a b : List Tr) :
    cpStates (a ++ b) = cpStates a ++ cpStates b :=
  List.filterMap_append _ _ _

lemma upRecords_append (a b : List Tr) :
    upRecords (a ++ b) = upRecords a ++ upRecords b :=
  List.filterMap_append _ _ _

lemma lastUpId_append_of_ne_nil (a b : List Tr)
    (h : upRecords b ≠ []) : lastUpId (a ++ b) = lastUpId b := by
  simp [lastUpId, upRecords_append, List.getLast?_append_of_ne_nil _ h]

lemma upRecords_ne_nil_of_lastUpId {t : List Tr} {v : Value}
    (h : lastUpId t = some v) : upRecords t ≠ [] := by
  intro hnil
  simp [lastUpId, hnil] at h

lemma lookup_setKey (m : StateMap) (k v : String) :
    List.lookup k (setKey m k v) = some v := by
  simp [setKey, List.lookup]

lemma trIds_append (a b : List Tr) :
    trIds (a ++ b) = trIds a ++ trIds b := by
  induction a with
  | nil => rfl
  | cons x rest ih =>
    cases x with
    | fetch u => simpa [trIds] using ih
    | op o =>
      cases o with
      | upsert tbl r => simp [trIds, ih]
      | checkpoint s => simpa [trIds] using ih

lemma cpOk_append (a b : List Tr) (seen : List String) :
    cpOk seen (a ++ b) = (cpOk seen a && cpOk (seen ++ trIds a) b) := by
  induction a generalizing seen with
  | nil => simp [cpOk, trIds]
  | cons x rest ih =>
    cases x with
    | fetch u => simp [cpOk, trIds, ih]
    | op o =>
      cases o with
      | upsert tbl r => simp [cpOk, trIds, ih]
      | checkpoint s => simp [cpOk, trIds, ih, Bool.and_assoc]

lemma cpOk_of_cpCount_zero {t : List Tr} (h : cpCount t = 0)
    (seen : List String) : cpOk seen t = true := by
  induction t generalizing seen with
  | nil => rfl
  | cons x rest ih =>
    cases x with
    | fetch u =>
      simp only [cpCount, List.countP_cons, isCp] at h
      exact (cpOk_append [Tr.fetch u] rest seen).symm ▸ by
        simpa [cpOk, trIds] using ih (by simpa [cpCount] using h) seen
    | op o =>
      cases o with
      | upsert tbl r =>
        simp only [cpCount, List.countP_cons, isCp] at h
        simpa [cpOk] using ih (by simpa [cpCount] using h) _
      | checkpoint s =>
        exfalso
        simp [cpCount, List.countP_cons, isCp] at h

end Connectors

namespace Stripe

open Connectors

lemma lastId_eq_getLast? (es : List SEvent) :
    lastId es = es.getLast?.map SEvent.id := by
  induction es with
  | nil => rfl
  | cons e rest ih =>
    cases rest with
    | nil => rfl
    | cons f rest' => simp [lastId, ih, List.getLast?_cons_cons]

lemma lookup_id_eventRecord (e : SEvent) :
    List.lookup "id" (eventRecord e) = some (.str e.id) := rfl

lemma upsertIdVals_eventRecord (e : SEvent) :
    upsertIdVals (eventRecord e) = [e.id] := rfl

lemma upRecords_eventMap (es : List SEvent) :
    upRecords (es.map fun e =>
      Tr.op (.upsert "stripe_events" (eventRecord e))) =
      es.map eventRecord := by
  induction es with
  | nil => rfl
  | cons e rest ih => simp [upRecords] at ih ⊢; exact ih

lemma cpCount_eventMap (es : List SEvent) :
    cpCount (es.map fun e =>
      Tr.op (.upsert "stripe_events" (eventRecord e))) = 0 := by
  simp [cpCount, List.countP_map, Function.comp, isCp]

lemma trIds_eventMap (es : List SEvent) :
    trIds (es.map fun e =>
      Tr.op (.upsert "stripe_events" (eventRecord e))) =
      es.map SEvent.id := by
  induction es with
  | nil => rfl
  | cons e rest ih => simp [trIds, upsertIdVals_eventRecord, ih]

lemma lastPagesId_good (pages : List (List SEvent)) (hne : pages ≠ [])
    (hg : ∀ p ∈ pages, ∃ l, lastId p = some l ∧ l ≠ "") :
    ∃ l, lastPagesId pages = some l ∧ l ≠ "" := by
  obtain ⟨pl, hpl⟩ : ∃ pl, pages.getLast? = some pl := by
    cases pages with
    | nil => exact absurd rfl hne
    | cons a t =>
      exact ⟨(a :: t).getLast (by simp), List.getLast?_eq_getLast _ _⟩
  obtain ⟨l, hl, hlne⟩ := hg pl (List.mem_of_mem_getLast? (by simp [hpl]))
  exact ⟨l, by simp [lastPagesId, hpl, hl], hlne⟩

lemma stripeLoop_cons_good (p : List SEvent) (hm : Bool)
    (rest : List (Except Unit SPage)) (params : SParams)
    (state : StateMap) (latest0 : Option String) (l : String)
    (hl : lastId p = some l) (hlne : l ≠ "") :
    stripeLoop (.ok ⟨p, hm⟩ :: rest) params state latest0 =
      if hm then
        (Tr.fetch (paramsUrl params) ::
          (p.map fun e => Tr.op (.upsert "stripe_events" (eventRecord e))) ++
          Tr.op (.checkpoint (setKey state "last_event_id" l)) ::
          (stripeLoop rest { params with starting_after := some l }
            (setKey state "last_event_id" l) (some l)).1,
         (stripeLoop rest { params with starting_after := some l }
            (setKey state "last_event_id" l) (some l)).2)
      else
        (Tr.fetch (paramsUrl params) ::
          (p.map fun e => Tr.op (.upsert "stripe_events" (eventRecord e))) ++
          [Tr.op (.checkpoint (setKey state "last_event_id" l))],
         setKey state "last_event_id" l, some l, none) := by
  have hpne : p ≠ [] := by
    intro h
    subst h
    simp [lastId] at hl
  obtain ⟨x, xs, rfl⟩ := List.exists_cons_of_ne_nil hpne
  have hbe : (l == "") = false := by simp [hlne]
  cases hm <;> simp [stripeLoop, hl, hbe]

lemma stripeLoop_mk_spec :
    ∀ (pages : List (List SEvent)), pages ≠ [] →
      (∀ p ∈ pages, ∃ l, lastId p = some l ∧ l ≠ "") →
      ∀ (params : SParams) (state : StateMap) (latest0 : Option String),
        (stripeLoop (mkStripeApi pages) params state latest0).2.2.2 = none ∧
        cpCount (stripeLoop (mkStripeApi pages) params state latest0).1 =
          pages.length ∧
        (stripeLoop (mkStripeApi pages) params state latest0).2.2.1 =
          lastPagesId pages ∧
        lastUpId (stripeLoop (mkStripeApi pages) params state latest0).1 =
          (lastPagesId pages).map Value.str := by
  intro pages
  induction pages with
  | nil => intro h; exact absurd rfl h
  | cons p rest ih =>
    intro _ hg params state latest0
    obtain ⟨l, hl, hlne⟩ := hg p (by simp)
    obtain ⟨e, he, hei⟩ : ∃ e, p.getLast? = some e ∧ e.id = l := by
      have := (lastId_eq_getLast? p) ▸ hl
      obtain ⟨e, he1, he2⟩ := Option.map_eq_some'.mp this
      exact ⟨e, he1, he2⟩
    cases rest with
    | nil =>
      rw [show mkStripeApi [p] = [.ok ⟨p, false⟩] from rfl,
        stripeLoop_cons_good p false [] params state latest0 l hl hlne]
      rw [if_neg (by simp)]
      refine ⟨rfl, ?_, ?_, ?_⟩
      · simp [cpCount, List.countP_cons, List.countP_append, isCp,
          List.countP_map, Function.comp]
      · simp [lastPagesId, hl]
      · simp only [lastUpId, upRecords, List.filterMap_cons,
          List.filterMap_append]
        have h1 : upRecords (p.map fun e =>
            Tr.op (.upsert "stripe_events" (eventRecord e))) =
            p.map eventRecord := upRecords_eventMap p
        simp only [upRecords] at h1
        rw [h1]
        simp [List.getLast?_map, he, lookup_id_eventRecord, hei,
          lastPagesId, hl]
    | cons q rest' =>
      rw [show mkStripeApi (p :: q :: rest') =
          .ok ⟨p, true⟩ :: mkStripeApi (q :: rest') from rfl,
        stripeLoop_cons_good p true (mkStripeApi (q :: rest'))
          params state latest0 l hl hlne]
      rw [if_pos rfl]
      have hg' : ∀ pg ∈ q :: rest', ∃ l₂, lastId pg = some l₂ ∧ l₂ ≠ "" :=
        fun pg hpg => hg pg (by simp [hpg])
      obtain ⟨h1, h2, h3, h4⟩ := ih (by simp) hg'
        { params with starting_after := some l }
        (setKey state "last_event_id" l) (some l)
      obtain ⟨l₂, hl₂, hl₂ne⟩ := lastPagesId_good (q :: rest') (by simp) hg'
      set r := stripeLoop (mkStripeApi (q :: rest'))
        { params with starting_after := some l }
        (setKey state "last_event_id" l) (some l) with hr
      have hup : upRecords r.1 ≠ [] :=
        upRecords_ne_nil_of_lastUpId (v := .str l₂) (by rw [h4, hl₂]; rfl)
      refine ⟨h1, ?_, ?_, ?_⟩
      · simp [cpCount, List.countP_cons, List.countP_append,
          List.countP_map, Function.comp_def, isCp, List.countP_false,
          List.length_cons] at h2 ⊢
        omega
      · rw [show ((Tr.fetch (paramsUrl params) ::
            (p.map fun e => Tr.op (.upsert "stripe_events" (eventRecord e))) ++
            Tr.op (.checkpoint (setKey state "last_event_id" l)) :: r.1,
            r.2) : List Tr × StateMap × Option String × Option Err).2.2.1 =
            r.2.2.1 from rfl, h3]
        simp [lastPagesId, List.getLast?_cons_cons]
      · have hsplit : Tr.fetch (paramsUrl params) ::
            (p.map fun e => Tr.op (.upsert "stripe_events" (eventRecord e))) ++
            Tr.op (.checkpoint (setKey state "last_event_id" l)) :: r.1 =
            (Tr.fetch (paramsUrl params) ::
              (p.map fun e =>
                Tr.op (.upsert "stripe_events" (eventRecord e))) ++
              [Tr.op (.checkpoint (setKey state "last_event_id" l))]) ++
              r.1 := by
          simp
        rw [hsplit, lastUpId_append_of_ne_nil _ _ hup, h4]
        simp [lastPagesId, List.getLast?_cons_cons]

end Stripe

namespace Stripe

open Connectors

lemma lastUpId_concat_cp (a : List Tr) (s : StateMap) :
    lastUpId (a ++ [Tr.op (.checkpoint s)]) = lastUpId a := by
  simp [lastUpId, upRecords_append, upRecords]

lemma lastCpCursor_concat_cp (a : List Tr) (s : StateMap) :
    lastCpCursor (a ++ [Tr.op (.checkpoint s)]) =
      List.lookup "last_event_id" s := by
  simp [lastCpCursor, cpStates_append, cpStates, List.getLast?_concat]

/-- C1, amended: over N non-empty pages (each ending in an event with a
truthy id), the Stripe run finishes without error and emits N + 1
checkpoints — one inside the loop after each page plus a duplicate
final checkpoint after the loop — and the final checkpoint's cursor
(state key `last_event_id`) equals the `id` of the last emitted record.
The original claim of exactly one checkpoint per page boundary is
refuted by `c1_cex`. -/
theorem stripe_run_checkpoints (parseDate : String → Option Int)
    (key : String) (sd : Option String) (state : StateMap)
    (pages : List (List SEvent)) (hne : pages ≠ [])
    (hg : ∀ p ∈ pages, ∃ l, lastId p = some l ∧ l ≠ "") :
    (stripeUpdate parseDate ⟨some key, sd⟩ state (mkStripeApi pages)).2 =
      none ∧
    cpCount
      (stripeUpdate parseDate ⟨some key, sd⟩ state (mkStripeApi pages)).1 =
      pages.length + 1 ∧
    ∃ l,
      lastCpCursor
        (stripeUpdate parseDate ⟨some key, sd⟩ state (mkStripeApi pages)).1 =
        some l ∧
      lastUpId
        (stripeUpdate parseDate ⟨some key, sd⟩ state (mkStripeApi pages)).1 =
        some (.str l) := by
  obtain ⟨l, hl, hlne⟩ := lastPagesId_good pages hne hg
  obtain ⟨herr, hcp, hlatest, hupid⟩ := stripeLoop_mk_spec pages hne hg
    (stripeParams parseDate ⟨some key, sd⟩ state) state none
  have hbe : (l == "") = false := by simp [hlne]
  have hres : stripeUpdate parseDate ⟨some key, sd⟩ state (mkStripeApi pages) =
      ((stripeLoop (mkStripeApi pages)
          (stripeParams parseDate ⟨some key, sd⟩ state) state none).1 ++
        [Tr.op (.checkpoint (setKey (stripeLoop (mkStripeApi pages)
          (stripeParams parseDate ⟨some key, sd⟩ state) state none).2.1
          "last_event_id" l))], none) := by
    simp only [stripeUpdate]
    rw [herr, hlatest, hl]
    simp [hbe]
  rw [hres]
  refine ⟨rfl, ?_, ⟨l, ?_, ?_⟩⟩
  · rw [cpCount_append, hcp]
    simp [cpCount, List.countP_cons, isCp]
  · rw [lastCpCursor_concat_cp, lookup_setKey]
  · rw [lastUpId_concat_cp, hupid, hl]
    rfl

end Stripe

namespace Figma

open Connectors

lemma figmaFiles_no_cp (parse : String → Option Int) (lsdt : Option Int)
    (pid : Option String) (fs : List FFile) :
    cpCount (figmaFiles parse lsdt pid fs).1 = 0 := by
  induction fs with
  | nil => rfl
  | cons f rest ih =>
    cases lsdt with
    | none => simpa [figmaFiles, cpCount, List.countP_cons, isCp] using ih
    | some cur =>
      cases hlm : f.last_modified with
      | none => simpa [figmaFiles, hlm, cpCount, List.countP_cons, isCp] using ih
      | some lm =>
        by_cases he : lm = ""
        · simpa [figmaFiles, hlm, he, cpCount, List.countP_cons, isCp] using ih
        · cases hp : parse lm with
          | none => simp [figmaFiles, hlm, he, hp, cpCount]
          | some t =>
            by_cases hle : t ≤ cur
            · simpa [figmaFiles, hlm, he, hp, hle] using ih
            · simpa [figmaFiles, hlm, he, hp, hle, cpCount,
                List.countP_cons, isCp] using ih

lemma figmaProjects_no_cp (parse : String → Option Int) (api : FigmaApi)
    (lsdt : Option Int) (ps : List FProject) :
    cpCount (figmaProjects parse api lsdt ps).1 = 0 := by
  induction ps with
  | nil => rfl
  | cons p rest ih =>
    cases hO : api.files p.id with
    | error e => simp [figmaProjects, hO, cpCount, List.countP_cons, isCp]
    | ok fj =>
      cases hfr : (figmaFiles parse lsdt p.id (fj.getD [])).2 with
      | some e =>
        have := figmaFiles_no_cp parse lsdt p.id (fj.getD [])
        simp [figmaProjects, hO, hfr, cpCount, List.countP_cons, isCp] at this ⊢
        exact this
      | none =>
        have h1 := figmaFiles_no_cp parse lsdt p.id (fj.getD [])
        simp [figmaProjects, hO, hfr, cpCount, List.countP_cons,
          List.countP_append, isCp] at h1 ih ⊢
        exact ⟨h1, ih⟩

end Figma

namespace Figma

open Connectors

lemma figmaFiles_no_stale (parse : String → Option Int) (cur : Int)
    (pid : Option String) (fs : List FFile) (hz : parse "" = none) :
    ((figmaFiles parse (some cur) pid fs).1.all fun tr =>
      !(staleFileUp parse cur tr)) = true := by
  induction fs with
  | nil => rfl
  | cons f rest ih =>
    cases hlm : f.last_modified with
    | none =>
      have hhead : (!(staleFileUp parse cur
          (Tr.op (.upsert "files" (fileRecord pid f))))) = true := by
        simp [staleFileUp, fileRecord, List.lookup, optStrVal, hlm]
      simp only [figmaFiles, hlm, List.all_cons, hhead, ih, Bool.true_and]
    | some lm =>
      by_cases he : lm = ""
      · have hhead : (!(staleFileUp parse cur
            (Tr.op (.upsert "files" (fileRecord pid f))))) = true := by
          simp [staleFileUp, fileRecord, List.lookup, optStrVal, hlm, he, hz]
        subst he
        simp only [figmaFiles, hlm]
        rw [if_pos (by rfl)]
        simp only [List.all_cons, hhead, ih, Bool.true_and]
      · cases hp : parse lm with
        | none => simp [figmaFiles, hlm, he, hp]
        | some t =>
          by_cases hle : t ≤ cur
          · simpa [figmaFiles, hlm, he, hp, hle] using ih
          · have hhead : (!(staleFileUp parse cur
                (Tr.op (.upsert "files" (fileRecord pid f))))) = true := by
              simp [staleFileUp, fileRecord, List.lookup, optStrVal, hlm,
                hp, hle]
            simp only [figmaFiles, hlm, List.all_cons, hhead, ih,
              Bool.true_and]
            simp [he, hp, hle, List.all_cons, hhead, ih]

lemma figmaProjects_no_stale (parse : String → Option Int) (cur : Int)
    (api : FigmaApi) (ps : List FProject) (hz : parse "" = none) :
    ((figmaProjects parse api (some cur) ps).1.all fun tr =>
      !(staleFileUp parse cur tr)) = true := by
  induction ps with
  | nil => rfl
  | cons p rest ih =>
    cases hO : api.files p.id with
    | error e => simp [figmaProjects, hO, staleFileUp]
    | ok fj =>
      have h1 := figmaFiles_no_stale parse cur p.id (fj.getD []) hz
      have hup : (!(staleFileUp parse cur
          (Tr.op (.upsert "projects" (projectRecord p))))) = true := by
        simp [staleFileUp]
      have hfe : ∀ u, (!(staleFileUp parse cur (Tr.fetch u))) = true := by
        intro u
        simp [staleFileUp]
      cases hfr : (figmaFiles parse (some cur) p.id (fj.getD [])).2 with
      | some e =>
        simp only [figmaProjects, hO, hfr, List.all_cons, hup, hfe,
          Bool.true_and, h1]
      | none =>
        simp only [figmaProjects, hO, hfr, List.all_cons, List.all_append,
          hup, hfe, Bool.true_and, h1, ih, Bool.and_self]

end Figma

namespace Figma

open Connectors

lemma figmaBody_no_stale (parse : String → Option Int) (cur : Int)
    (now team : String) (api : FigmaApi) (hz : parse "" = none) :
    ((figmaBody parse now team api (some cur)).1.all fun tr =>
      !(staleFileUp parse cur tr)) = true := by
  have hfe : ∀ u, (!(staleFileUp parse cur (Tr.fetch u))) = true := by
    intro u
    simp [staleFileUp]
  have hcp : ∀ s, (!(staleFileUp parse cur (Tr.op (.checkpoint s)))) = true := by
    intro s
    simp [staleFileUp]
  cases hap : api.projects with
  | error e => simp only [figmaBody, hap, List.all_cons, hfe, List.all_nil,
      Bool.true_and]
  | ok pj =>
    have h1 := figmaProjects_no_stale parse cur api (pj.getD []) hz
    cases hpr : (figmaProjects parse api (some cur) (pj.getD [])).2 with
    | some e =>
      simp only [figmaBody, hap, hpr, List.all_cons, hfe, Bool.true_and, h1]
    | none =>
      simp only [figmaBody, hap, hpr, List.all_cons, List.all_append, hfe,
        hcp, Bool.true_and, h1, List.all_nil, Bool.and_self]

/-- C4: given a state whose `last_synced` cursor parses to `cur`, no
emitted upsert carries a `last_modified` that parses to a time at or
before `cur`: every file entity not newer than the stored cursor is
skipped by the client-side filter. -/
theorem figma_skips_stale (parse : String → Option Int) (now : String)
    (tok tid c : String) (rest : StateMap) (api : FigmaApi) (cur : Int)
    (hc : c ≠ "") (hparse : parse c = some cur) (hz : parse "" = none) :
    ((figmaUpdate parse now ⟨some tok, some tid⟩
        (("last_synced", c) :: rest) api).1.all fun tr =>
      !(staleFileUp parse cur tr)) = true := by
  by_cases htt : (tok == "" || tid == "") = true
  · simp [figmaUpdate, htt]
  · have htt' : (tok == "" || tid == "") = false := by
      simpa using htt
    have hlk : List.lookup "last_synced" (("last_synced", c) :: rest) =
        some c := by
      simp [List.lookup]
    have hcb : (c == "") = false := by simp [hc]
    have hred : figmaUpdate parse now ⟨some tok, some tid⟩
        (("last_synced", c) :: rest) api =
        figmaBody parse now tid api (some cur) := by
      simp only [figmaUpdate, htt', hlk, hcb, hparse]
      simp
    rw [hred]
    exact figmaBody_no_stale parse cur now tid api hz

end Figma

namespace Stripe

open Connectors

lemma lastId_isSome_of_ne_nil {es : List SEvent} (h : es ≠ []) :
    ∃ i, lastId es = some i := by
  rw [lastId_eq_getLast?]
  obtain ⟨e, he⟩ : ∃ e, es.getLast? = some e := by
    cases es with
    | nil => exact absurd rfl h
    | cons a t =>
      exact ⟨(a :: t).getLast (by simp), List.getLast?_eq_getLast _ _⟩
  exact ⟨e.id, by simp [he]⟩

lemma stripeLoop_shape :
    ∀ (api : List (Except Unit SPage)) (params : SParams)
      (state : StateMap) (latest : Option String),
      ∀ tr ∈ (stripeLoop api params state latest).1,
        (∃ u, tr = Tr.fetch u) ∨
        (∃ s, tr = Tr.op (.checkpoint s)) ∨
        (∃ pg e, Except.ok pg ∈ api ∧ e ∈ pg.data ∧
          tr = Tr.op (.upsert "stripe_events" (eventRecord e))) := by
  intro api
  induction api with
  | nil =>
    intro params state latest tr htr
    simp [stripeLoop] at htr
  | cons resp rest ih =>
    intro params state latest tr htr
    cases resp with
    | error e =>
      simp [stripeLoop] at htr
      subst htr
      exact Or.inl ⟨_, rfl⟩
    | ok page =>
      cases hemp : page.data.isEmpty with
      | true =>
        simp [stripeLoop, hemp] at htr
        subst htr
        exact Or.inl ⟨_, rfl⟩
      | false =>
        have hne : page.data ≠ [] := by
          intro h
          simp [h] at hemp
        obtain ⟨l, hli⟩ := lastId_isSome_of_ne_nil hne
        by_cases hlb : l = ""
        · subst hlb
          cases hhm : page.has_more with
          | true =>
            simp [stripeLoop, hemp, hli, hhm] at htr
            rcases htr with rfl | ⟨e, he, rfl⟩ | hrest
            · exact Or.inl ⟨_, rfl⟩
            · exact Or.inr (Or.inr ⟨page, e, by simp, he, rfl⟩)
            · rcases ih _ _ _ tr hrest with h | h | ⟨pg, e, hpg, he, rfl⟩
              · exact Or.inl h
              · exact Or.inr (Or.inl h)
              · exact Or.inr (Or.inr ⟨pg, e, by simp [hpg], he, rfl⟩)
          | false =>
            simp [stripeLoop, hemp, hli, hhm] at htr
            rcases htr with rfl | ⟨e, he, rfl⟩
            · exact Or.inl ⟨_, rfl⟩
            · exact Or.inr (Or.inr ⟨page, e, by simp, he, rfl⟩)
        · have hbe : (l == "") = false := by simp [hlb]
          cases hhm : page.has_more with
          | true =>
            simp [stripeLoop, hemp, hli, hbe, hhm] at htr
            rcases htr with rfl | ⟨e, he, rfl⟩ | rfl | hrest
            · exact Or.inl ⟨_, rfl⟩
            · exact Or.inr (Or.inr ⟨page, e, by simp, he, rfl⟩)
            · exact Or.inr (Or.inl ⟨_, rfl⟩)
            · rcases ih _ _ _ tr hrest with h | h | ⟨pg, e, hpg, he, rfl⟩
              · exact Or.inl h
              · exact Or.inr (Or.inl h)
              · exact Or.inr (Or.inr ⟨pg, e, by simp [hpg], he, rfl⟩)
          | false =>
            simp [stripeLoop, hemp, hli, hbe, hhm] at htr
            rcases htr with rfl | ⟨e, he, rfl⟩ | rfl
            · exact Or.inl ⟨_, rfl⟩
            · exact Or.inr (Or.inr ⟨page, e, by simp, he, rfl⟩)
            · exact Or.inr (Or.inl ⟨_, rfl⟩)

end Stripe

namespace Figma

open Connectors

lemma figmaFiles_shape (parse : String → Option Int) (lsdt : Option Int)
    (pid : Option String) (fs : List FFile) :
    ∀ tr ∈ (figmaFiles parse lsdt pid fs).1,
      ∃ f ∈ fs, tr = Tr.op (.upsert "files" (fileRecord pid f)) := by
  induction fs with
  | nil => intro tr htr; simp [figmaFiles] at htr
  | cons f rest ih =>
    intro tr htr
    have hlift : tr ∈ (figmaFiles parse lsdt pid rest).1 →
        ∃ g ∈ f :: rest, tr = Tr.op (.upsert "files" (fileRecord pid g)) := by
      intro h
      obtain ⟨g, hg, rfl⟩ := ih tr h
      exact ⟨g, by simp [hg], rfl⟩
    cases lsdt with
    | none =>
      simp only [figmaFiles, List.mem_cons] at htr
      rcases htr with rfl | h
      · exact ⟨f, by simp, rfl⟩
      · exact hlift h
    | some cur =>
      cases hlm : f.last_modified with
      | none =>
        simp only [figmaFiles, hlm, List.mem_cons] at htr
        rcases htr with rfl | h
        · exact ⟨f, by simp, rfl⟩
        · exact hlift h
      | some lm =>
        by_cases he : lm = ""
        · subst he
          simp only [figmaFiles, hlm] at htr
          rw [if_pos (by rfl)] at htr
          simp only [List.mem_cons] at htr
          rcases htr with rfl | h
          · exact ⟨f, by simp, rfl⟩
          · exact hlift h
        · have heb : (lm == "") = false := by simp [he]
          cases hp : parse lm with
          | none =>
            simp [figmaFiles, hlm, heb, hp] at htr
          | some t =>
            by_cases hle : t ≤ cur
            · simp only [figmaFiles, hlm, heb, Bool.false_eq_true,
                if_false, hp] at htr
              rw [if_pos hle] at htr
              exact hlift htr
            · simp only [figmaFiles, hlm, heb, Bool.false_eq_true,
                if_false, hp] at htr
              rw [if_neg hle] at htr
              simp only [List.mem_cons] at htr
              rcases htr with rfl | h
              · exact ⟨f, by simp, rfl⟩
              · exact hlift h

lemma figmaProjects_shape (parse : String → Option Int) (api : FigmaApi)
    (lsdt : Option Int) (ps : List FProject) :
    ∀ tr ∈ (figmaProjects parse api lsdt ps).1,
      (∃ u, tr = Tr.fetch u) ∨
      (∃ p ∈ ps, tr = Tr.op (.upsert "projects" (projectRecord p))) ∨
      (∃ p fl f, p ∈ ps ∧ api.files p.id = .ok fl ∧ f ∈ fl.getD [] ∧
        tr = Tr.op (.upsert "files" (fileRecord p.id f))) := by
  induction ps with
  | nil => intro tr htr; simp [figmaProjects] at htr
  | cons p rest ih =>
    intro tr htr
    cases hO : api.files p.id with
    | error e =>
      simp [figmaProjects, hO] at htr
      rcases htr with rfl | rfl
      · exact Or.inr (Or.inl ⟨p, by simp, rfl⟩)
      · exact Or.inl ⟨_, rfl⟩
    | ok fj =>
      cases hfr : (figmaFiles parse lsdt p.id (fj.getD [])).2 with
      | some e =>
        simp only [figmaProjects, hO, hfr, List.mem_cons] at htr
        rcases htr with rfl | rfl | h
        · exact Or.inr (Or.inl ⟨p, by simp, rfl⟩)
        · exact Or.inl ⟨_, rfl⟩
        · obtain ⟨f, hf, rfl⟩ := figmaFiles_shape parse lsdt p.id
            (fj.getD []) tr h
          exact Or.inr (Or.inr ⟨p, fj, f, by simp, hO, hf, rfl⟩)
      | none =>
        simp only [figmaProjects, hO, hfr, List.mem_cons,
          List.mem_append] at htr
        rcases htr with rfl | rfl | h | h
        · exact Or.inr (Or.inl ⟨p, by simp, rfl⟩)
        · exact Or.inl ⟨_, rfl⟩
        · obtain ⟨f, hf, rfl⟩ := figmaFiles_shape parse lsdt p.id
            (fj.getD []) tr h
          exact Or.inr (Or.inr ⟨p, fj, f, by simp, hO, hf, rfl⟩)
        · rcases ih tr h with h1 | ⟨q, hq, rfl⟩ | ⟨q, fl, f, hq, hfl, hf, rfl⟩
          · exact Or.inl h1
          · exact Or.inr (Or.inl ⟨q, by simp [hq], rfl⟩)
          · exact Or.inr (Or.inr ⟨q, fl, f, by simp [hq], hfl, hf, rfl⟩)

end Figma

namespace Stripe

open Connectors

lemma stripeUpdate_shape (parseDate : String → Option Int)
    (config : SConfig) (state : StateMap)
    (api : List (Except Unit SPage)) :
    ∀ tr ∈ (stripeUpdate parseDate config state api).1,
      (∃ u, tr = Tr.fetch u) ∨
      (∃ s, tr = Tr.op (.checkpoint s)) ∨
      (∃ pg e, Except.ok pg ∈ api ∧ e ∈ pg.data ∧
        tr = Tr.op (.upsert "stripe_events" (eventRecord e))) := by
  intro tr htr
  cases hk : config.stripe_api_key with
  | none => simp [stripeUpdate, hk] at htr
  | some k =>
    have hloop := stripeLoop_shape api
      (stripeParams parseDate config state) state none
    simp only [stripeUpdate, hk] at htr
    cases herr : (stripeLoop api (stripeParams parseDate config state)
        state none).2.2.2 with
    | some e =>
      rw [herr] at htr
      exact hloop tr htr
    | none =>
      rw [herr] at htr
      cases hla : (stripeLoop api (stripeParams parseDate config state)
          state none).2.2.1 with
      | none =>
        rw [hla] at htr
        exact hloop tr htr
      | some l =>
        rw [hla] at htr
        by_cases hlb : l = ""
        · subst hlb
          exact hloop tr htr
        · have hbe : (l == "") = false := by simp [hlb]
          simp only [hbe, Bool.false_eq_true, if_false, List.mem_append,
            List.mem_singleton] at htr
          rcases htr with h | rfl
          · exact hloop tr h
          · exact Or.inr (Or.inl ⟨_, rfl⟩)

end Stripe

namespace Connectors

lemma pkOkTr_fetch (tables : List TableDef) (u : String) :
    pkOkTr tables (Tr.fetch u) = true := rfl

lemma pkOkTr_cp (tables : List TableDef) (s : StateMap) :
    pkOkTr tables (Tr.op (.checkpoint s)) = true := rfl

end Connectors

namespace Figma

open Connectors

lemma pkOkTr_project (cfg : FConfig) (p : FProject) (s : String)
    (h1 : p.id = some s) (h2 : s ≠ "") :
    pkOkTr (figmaSchema cfg) (Tr.op (.upsert "projects" (projectRecord p))) =
      true := by
  simp [pkOkTr, primaryKeyOf, figmaSchema, projectRecord, optStrVal,
    List.lookup, h1, h2]

lemma pkOkTr_file (cfg : FConfig) (pid : Option String) (f : FFile)
    (s : String) (h1 : f.key = some s) (h2 : s ≠ "") :
    pkOkTr (figmaSchema cfg) (Tr.op (.upsert "files" (fileRecord pid f))) =
      true := by
  simp [pkOkTr, primaryKeyOf, figmaSchema, fileRecord, optStrVal,
    List.lookup, h1, h2]

lemma figmaBody_pk (cfg : FConfig) (parse : String → Option Int)
    (now team : String) (api : FigmaApi) (lsdt : Option Int)
    (hp : ∀ ps, api.projects = .ok (some ps) →
      ∀ p ∈ ps, ∃ s, p.id = some s ∧ s ≠ "")
    (hf : ∀ pid fl, api.files pid = .ok (some fl) →
      ∀ f ∈ fl, ∃ s, f.key = some s ∧ s ≠ "") :
    ((figmaBody parse now team api lsdt).1.all (pkOkTr (figmaSchema cfg))) =
      true := by
  rw [List.all_eq_true]
  intro tr htr
  cases hap : api.projects with
  | error e =>
    simp only [figmaBody, hap, List.mem_singleton] at htr
    subst htr
    exact pkOkTr_fetch _ _
  | ok pj =>
    have hshape := figmaProjects_shape parse api lsdt (pj.getD [])
    have hmem : ∀ x ∈ (figmaProjects parse api lsdt (pj.getD [])).1,
        pkOkTr (figmaSchema cfg) x = true := by
      intro x hx
      rcases hshape x hx with ⟨u, rfl⟩ | ⟨p, hpm, rfl⟩ |
        ⟨p, fl, f, hpm, hfl, hfm, rfl⟩
      · exact pkOkTr_fetch _ _
      · cases hpj : pj with
        | none => subst hpj; simp at hpm
        | some ps =>
          subst hpj
          obtain ⟨s, h1, h2⟩ := hp ps hap p (by simpa using hpm)
          exact pkOkTr_project cfg p s h1 h2
      · cases hfl2 : fl with
        | none => subst hfl2; simp at hfm
        | some l' =>
          subst hfl2
          obtain ⟨s, h1, h2⟩ := hf p.id l' hfl f (by simpa using hfm)
          exact pkOkTr_file cfg p.id f s h1 h2
    cases hpr : (figmaProjects parse api lsdt (pj.getD [])).2 with
    | some e =>
      simp only [figmaBody, hap, hpr, List.mem_cons] at htr
      rcases htr with rfl | h
      · exact pkOkTr_fetch _ _
      · exact hmem tr h
    | none =>
      simp only [figmaBody, hap, hpr, List.mem_cons, List.mem_append,
        List.mem_singleton] at htr
      rcases htr with (rfl | h) | (rfl | h)
      · exact pkOkTr_fetch _ _
      · exact hmem tr h
      · exact pkOkTr_cp _ _
      · simp at h

end Figma

namespace Figma

open Connectors

lemma figmaUpdate_cases (parse : String → Option Int) (now : String)
    (cfg : FConfig) (state : StateMap) (api : FigmaApi) :
    (∃ e, figmaUpdate parse now cfg state api = ([], some e)) ∨
    ∃ tid lsdt, cfg.team_id = some tid ∧
      figmaUpdate parse now cfg state api = figmaBody parse now tid api lsdt := by
  obtain ⟨tokO, tidO⟩ := cfg
  cases tokO with
  | none =>
    cases tidO with
    | none => exact Or.inl ⟨.configError, rfl⟩
    | some tid => exact Or.inl ⟨.configError, rfl⟩
  | some tok =>
    cases tidO with
    | none => exact Or.inl ⟨.configError, rfl⟩
    | some tid =>
      by_cases htt : (tok == "" || tid == "") = true
      · exact Or.inl ⟨.configError, by simp [figmaUpdate, htt]⟩
      · have htt' : (tok == "" || tid == "") = false := by simpa using htt
        cases hlk : List.lookup "last_synced" state with
        | none =>
          refine Or.inr ⟨tid, none, rfl, ?_⟩
          simp [figmaUpdate, htt', hlk]
        | some s =>
          by_cases hs : s = ""
          · subst hs
            refine Or.inr ⟨tid, none, rfl, ?_⟩
            simp [figmaUpdate, htt', hlk]
          · cases hp : parse s with
            | none =>
              exact Or.inl ⟨.parseError, by simp [figmaUpdate, htt', hlk, hs, hp]⟩
            | some t =>
              refine Or.inr ⟨tid, some t, rfl, ?_⟩
              simp [figmaUpdate, htt', hlk, hs, hp]

end Figma

namespace Stripe

open Connectors

lemma lastId_mem {es : List SEvent} {l : String}
    (h : lastId es = some l) : l ∈ es.map SEvent.id := by
  rw [lastId_eq_getLast?] at h
  obtain ⟨e, he, hei⟩ := Option.map_eq_some'.mp h
  exact hei ▸ List.mem_map_of_mem SEvent.id (List.mem_of_mem_getLast? (by simp [he]))

lemma cpCount_fetch_ups (u : String) (es : List SEvent) :
    cpCount (Tr.fetch u ::
      es.map fun e => Tr.op (.upsert "stripe_events" (eventRecord e))) = 0 := by
  simp [cpCount, List.countP_cons, isCp, List.countP_map, Function.comp_def,
    List.countP_false]

lemma trIds_nil : trIds [] = [] := rfl

lemma trIds_fetch_cons (u : String) (t : List Tr) :
    trIds (Tr.fetch u :: t) = trIds t := rfl

lemma trIds_cp_cons (s : StateMap) (t : List Tr) :
    trIds (Tr.op (.checkpoint s) :: t) = trIds t := rfl

lemma trIds_fetch_ups (u : String) (es : List SEvent) :
    trIds (Tr.fetch u ::
      es.map fun e => Tr.op (.upsert "stripe_events" (eventRecord e))) =
      es.map SEvent.id := by
  rw [trIds]
  exact trIds_eventMap es

lemma stripeLoop_cpOk :
    ∀ (api : List (Except Unit SPage)) (params : SParams)
      (state : StateMap) (latest : Option String) (seen : List String),
      (∀ l, latest = some l → l ≠ "" → l ∈ seen) →
      cpOk seen (stripeLoop api params state latest).1 = true ∧
      (∀ l, (stripeLoop api params state latest).2.2.1 = some l → l ≠ "" →
        l ∈ seen ++ trIds (stripeLoop api params state latest).1) := by
  intro api
  induction api with
  | nil =>
    intro params state latest seen hpre
    refine ⟨rfl, ?_⟩
    intro l hl hlne
    exact List.mem_append_left _ (hpre l hl hlne)
  | cons resp rest ih =>
    intro params state latest seen hpre
    cases resp with
    | error e =>
      refine ⟨rfl, ?_⟩
      intro l hl hlne
      exact List.mem_append_left _ (hpre l hl hlne)
    | ok page =>
      cases hemp : page.data.isEmpty with
      | true =>
        have hT : stripeLoop (.ok page :: rest) params state latest =
            ([Tr.fetch (paramsUrl params)], state, latest, none) := by
          simp [stripeLoop, hemp]
        rw [hT]
        refine ⟨rfl, ?_⟩
        intro l hl hlne
        exact List.mem_append_left _ (hpre l hl hlne)
      | false =>
        have hne : page.data ≠ [] := by
          intro h
          simp [h] at hemp
        obtain ⟨l, hli⟩ := lastId_isSome_of_ne_nil hne
        have hlmem : l ∈ page.data.map SEvent.id := lastId_mem hli
        by_cases hlb : l = ""
        · subst hlb
          cases hhm : page.has_more with
          | true =>
            have hT : stripeLoop (.ok page :: rest) params state latest =
                ((Tr.fetch (paramsUrl params) ::
                  page.data.map fun e =>
                    Tr.op (.upsert "stripe_events" (eventRecord e))) ++
                  (stripeLoop rest params state (some "")).1,
                 (stripeLoop rest params state (some "")).2) := by
              simp [stripeLoop, hemp, hli, hhm]
            have hseen' : ∀ l', (some "" : Option String) = some l' →
                l' ≠ "" → l' ∈ seen ++ page.data.map SEvent.id := by
              intro l' hl' hlne'
              cases hl'
              exact absurd rfl hlne'
            obtain ⟨ih1, ih2⟩ := ih params state (some "")
              (seen ++ page.data.map SEvent.id) hseen'
            rw [hT]
            constructor
            · rw [cpOk_append,
                cpOk_of_cpCount_zero (cpCount_fetch_ups _ _) seen,
                trIds_fetch_ups, ih1]
              rfl
            · intro l' hl' hlne'
              have h2 := ih2 l' hl' hlne'
              simp only [List.cons_append, trIds_fetch_cons, trIds_cp_cons,
                trIds_append, trIds_eventMap, List.mem_append] at h2 ⊢
              tauto
          | false =>
            have hT : stripeLoop (.ok page :: rest) params state latest =
                (Tr.fetch (paramsUrl params) ::
                  page.data.map fun e =>
                    Tr.op (.upsert "stripe_events" (eventRecord e)),
                 state, some "", none) := by
              simp [stripeLoop, hemp, hli, hhm]
            rw [hT]
            constructor
            · exact cpOk_of_cpCount_zero (cpCount_fetch_ups _ _) seen
            · intro l' hl' hlne'
              cases hl'
              exact absurd rfl hlne'
        · have hbe : (l == "") = false := by simp [hlb]
          cases hhm : page.has_more with
          | true =>
            have hT : stripeLoop (.ok page :: rest) params state latest =
                ((Tr.fetch (paramsUrl params) ::
                  page.data.map fun e =>
                    Tr.op (.upsert "stripe_events" (eventRecord e))) ++
                  (Tr.op (.checkpoint (setKey state "last_event_id" l)) ::
                    (stripeLoop rest { params with starting_after := some l }
                      (setKey state "last_event_id" l) (some l)).1),
                 (stripeLoop rest { params with starting_after := some l }
                    (setKey state "last_event_id" l) (some l)).2) := by
              simp [stripeLoop, hemp, hli, hbe, hhm]
            have hseen' : ∀ l', (some l : Option String) = some l' →
                l' ≠ "" → l' ∈ seen ++ page.data.map SEvent.id := by
              intro l' hl' hlne'
              cases hl'
              exact List.mem_append_right seen hlmem
            obtain ⟨ih1, ih2⟩ := ih { params with starting_after := some l }
              (setKey state "last_event_id" l) (some l)
              (seen ++ page.data.map SEvent.id) hseen'
            rw [hT]
            constructor
            · rw [cpOk_append,
                cpOk_of_cpCount_zero (cpCount_fetch_ups _ _) seen,
                trIds_fetch_ups]
              have hcps : cpOk (seen ++ page.data.map SEvent.id)
                  (Tr.op (.checkpoint (setKey state "last_event_id" l)) ::
                    (stripeLoop rest { params with starting_after := some l }
                      (setKey state "last_event_id" l) (some l)).1) = true := by
                simp only [cpOk, lookup_setKey, ih1, Bool.and_true]
                simp [List.mem_append_right seen hlmem]
              rw [hcps]
              rfl
            · intro l' hl' hlne'
              have h2 := ih2 l' hl' hlne'
              simp only [List.cons_append, trIds_fetch_cons, trIds_cp_cons,
                trIds_append, trIds_eventMap, List.mem_append] at h2 ⊢
              tauto
          | false =>
            have hT : stripeLoop (.ok page :: rest) params state latest =
                ((Tr.fetch (paramsUrl params) ::
                  page.data.map fun e =>
                    Tr.op (.upsert "stripe_events" (eventRecord e))) ++
                  [Tr.op (.checkpoint (setKey state "last_event_id" l))],
                 setKey state "last_event_id" l, some l, none) := by
              simp [stripeLoop, hemp, hli, hbe, hhm]
            rw [hT]
            constructor
            · rw [cpOk_append,
                cpOk_of_cpCount_zero (cpCount_fetch_ups _ _) seen,
                trIds_fetch_ups]
              simp only [cpOk, lookup_setKey, Bool.and_true]
              simp [List.mem_append_right seen hlmem]
            · intro l' hl' hlne'
              cases hl'
              simp only [List.cons_append, trIds_fetch_cons, trIds_cp_cons,
                trIds_append, trIds_eventMap, trIds_nil, List.append_nil,
                List.mem_append]
              right
              exact hlmem

end Stripe

namespace Stripe

open Connectors

/-- C9: every checkpoint emitted by the Stripe connector carries a
`last_event_id` cursor equal to the `id` of some record upserted
earlier in the same trace — a checkpoint never advances the cursor past
the records emitted before it. -/
theorem stripe_cp_cursor (parseDate : String → Option Int)
    (config : SConfig) (state : StateMap)
    (api : List (Except Unit SPage)) :
    cpOk [] (stripeUpdate parseDate config state api).1 = true := by
  cases hk : config.stripe_api_key with
  | none => simp [stripeUpdate, hk, cpOk]
  | some k =>
    have hpre : ∀ l, (none : Option String) = some l → l ≠ "" →
        l ∈ ([] : List String) := by
      intro l hl
      cases hl
    obtain ⟨h1, h2⟩ := stripeLoop_cpOk api (stripeParams parseDate config state)
      state none [] hpre
    cases herr : (stripeLoop api (stripeParams parseDate config state)
        state none).2.2.2 with
    | some e =>
      have hres : (stripeUpdate parseDate config state api).1 =
          (stripeLoop api (stripeParams parseDate config state) state none).1 := by
        simp only [stripeUpdate, hk]
        rw [herr]
      rw [hres]
      exact h1
    | none =>
      cases hla : (stripeLoop api (stripeParams parseDate config state)
          state none).2.2.1 with
      | none =>
        have hres : (stripeUpdate parseDate config state api).1 =
            (stripeLoop api (stripeParams parseDate config state) state none).1 := by
          simp only [stripeUpdate, hk]
          rw [herr, hla]
        rw [hres]
        exact h1
      | some l =>
        by_cases hlb : l = ""
        · subst hlb
          have hres : (stripeUpdate parseDate config state api).1 =
              (stripeLoop api (stripeParams parseDate config state) state none).1 := by
            simp only [stripeUpdate, hk]
            rw [herr, hla]
            rfl
          rw [hres]
          exact h1
        · have hbe : (l == "") = false := by simp [hlb]
          have hres : (stripeUpdate parseDate config state api).1 =
              (stripeLoop api (stripeParams parseDate config state)
                state none).1 ++
              [Tr.op (.checkpoint (setKey (stripeLoop api
                (stripeParams parseDate config state) state none).2.1
                "last_event_id" l))] := by
            simp only [stripeUpdate, hk]
            rw [herr, hla]
            simp [hbe]
          rw [hres, cpOk_append, h1]
          have hmem := h2 l hla hlb
          simp only [List.nil_append] at hmem
          simp [cpOk, lookup_setKey, hmem]

end Stripe

namespace Stripe

open Connectors

lemma pkOkTr_event (scfg : SConfig) (e : SEvent) (h : e.id ≠ "") :
    pkOkTr (stripeSchema scfg) (Tr.op (.upsert "stripe_events"
      (eventRecord e))) = true := by
  simp [pkOkTr, primaryKeyOf, stripeSchema, eventRecord, List.lookup, h]

/-- C8: every upsert emitted by the Stripe connector carries a `data`
column that is a dictionary, never null — a missing or null event
`data` is replaced by the empty dictionary. -/
theorem stripe_data_dict (parseDate : String → Option Int)
    (config : SConfig) (state : StateMap)
    (api : List (Except Unit SPage)) :
    ((stripeUpdate parseDate config state api).1.all dataDictTr) = true := by
  rw [List.all_eq_true]
  intro tr htr
  rcases stripeUpdate_shape parseDate config state api tr htr with
    ⟨u, rfl⟩ | ⟨s, rfl⟩ | ⟨pg, e, hpg, he, rfl⟩
  · rfl
  · rfl
  · simp [dataDictTr, eventRecord, List.lookup]

end Stripe

namespace Connectors

open Stripe Figma

/-- C5, amended: every upsert of either connector carries its table's
schema-declared primary-key field with a non-empty string value,
provided every entity in the API responses supplies a non-empty
identifier (`id` for projects and events, `key` for files).  Without
that proviso the claim fails — the connectors copy missing identifiers
through as nulls, see `upsert_pk_cex`. -/
theorem upsert_pk (parse : String → Option Int) (now : String)
    (fcfg : FConfig) (fstate : StateMap) (fapi : FigmaApi)
    (scfg : SConfig) (sstate : StateMap)
    (sapi : List (Except Unit SPage))
    (hp : ∀ ps, fapi.projects = .ok (some ps) →
      ∀ p ∈ ps, ∃ s, p.id = some s ∧ s ≠ "")
    (hf : ∀ pid fl, fapi.files pid = .ok (some fl) →
      ∀ f ∈ fl, ∃ s, f.key = some s ∧ s ≠ "")
    (hs : ∀ pg e, Except.ok pg ∈ sapi → e ∈ pg.data → e.id ≠ "") :
    ((figmaUpdate parse now fcfg fstate fapi).1.all
      (pkOkTr (figmaSchema fcfg))) = true ∧
    ((stripeUpdate parse scfg sstate sapi).1.all
      (pkOkTr (stripeSchema scfg))) = true := by
  constructor
  · rcases figmaUpdate_cases parse now fcfg fstate fapi with ⟨e2, hnil⟩ |
      ⟨tid, lsdt, htid, hbody⟩
    · rw [hnil]
      rfl
    · rw [hbody]
      exact figmaBody_pk fcfg parse now tid fapi lsdt hp hf
  · rw [List.all_eq_true]
    intro tr htr
    rcases stripeUpdate_shape parse scfg sstate sapi tr htr with
      ⟨u, rfl⟩ | ⟨s, rfl⟩ | ⟨pg, e, hpg, he, rfl⟩
    · rfl
    · rfl
    · exact pkOkTr_event scfg e (hs pg e hpg he)

end Connectors

namespace Figma

open Connectors

/-- C10: every completed (error-free) run of the Figma `update` emits
exactly one checkpoint, it is the final element of the trace, and its
state is exactly `{"last_synced": now}` — a single key. -/
theorem figma_single_checkpoint (parse : String → Option Int) (now : String)
    (cfg : FConfig) (state : StateMap) (api : FigmaApi)
    (h : (figmaUpdate parse now cfg state api).2 = none) :
    ∃ pre, (figmaUpdate parse now cfg state api).1 =
      pre ++ [Tr.op (.checkpoint [("last_synced", now)])] ∧
      cpCount pre = 0 := by
  rcases figmaUpdate_cases parse now cfg state api with ⟨e, hnil⟩ |
    ⟨tid, lsdt, htid, hbody⟩
  · rw [hnil] at h
    simp at h
  · rw [hbody] at h ⊢
    cases hap : api.projects with
    | error e =>
      rw [show (figmaBody parse now tid api lsdt).2 = some .httpError from by
        simp [figmaBody, hap]] at h
      simp at h
    | ok pj =>
      cases hpr : (figmaProjects parse api lsdt (pj.getD [])).2 with
      | some e =>
        rw [show (figmaBody parse now tid api lsdt).2 = some e from by
          simp [figmaBody, hap, hpr]] at h
        simp at h
      | none =>
        refine ⟨Tr.fetch ("https://api.figma.com/v1/teams/" ++ tid ++
          "/projects") :: (figmaProjects parse api lsdt (pj.getD [])).1,
          ?_, ?_⟩
        · simp [figmaBody, hap, hpr]
        · simp [cpCount, List.countP_cons, isCp]
          have := figmaProjects_no_cp parse api lsdt (pj.getD [])
          simpa [cpCount] using this

end Figma

namespace Stripe

open Connectors

/-- C2, amended: with state `{"last_event_id": "evt_5"}` and one page
`evt_6, evt_7` with `has_more = false`, the run emits exactly two
upserts (evt_6 then evt_7) followed by two identical checkpoints
`{"last_event_id": "evt_7"}` — not one checkpoint as the spec's example
says. -/
theorem c2_exact_trace :
    opsOf (stripeUpdate parseIntDate ⟨some "sk", none⟩ c2state c2api).1 =
      [Op.upsert "stripe_events" (eventRecord (mkEvent "evt_6")),
       Op.upsert "stripe_events" (eventRecord (mkEvent "evt_7")),
       Op.checkpoint [("last_event_id", "evt_7")],
       Op.checkpoint [("last_event_id", "evt_7")]] ∧
    (stripeUpdate parseIntDate ⟨some "sk", none⟩ c2state c2api).2 = none :=
  ⟨rfl, rfl⟩

/-- C2, counterexample: that same run emits two checkpoints, refuting
the claim that exactly one checkpoint follows the two upserts. -/
theorem c2_cex :
    cpCount (stripeUpdate parseIntDate ⟨some "sk", none⟩ c2state c2api).1 =
      2 := rfl

/-- C1, counterexample: a run over a single non-empty page emits two
checkpoints, not one — the in-loop checkpoint of the page is followed
by a duplicate final checkpoint after the loop. -/
theorem c1_cex :
    cpCount (stripeUpdate parseIntDate ⟨some "sk", none⟩ []
      (mkStripeApi [[mkEvent "evt_1"]])).1 = 2 := rfl

/-- C3, counterexample: re-running the Stripe connector with the state
of a prior run when the API returns an empty page emits zero
checkpoints (and zero upserts), not the claimed single checkpoint
repeating the cursor. -/
theorem c3_cex :
    cpCount (stripeUpdate parseIntDate ⟨some "sk", none⟩
      [("last_event_id", "evt_7")] [.ok ⟨[], false⟩]).1 = 0 ∧
    upCount (stripeUpdate parseIntDate ⟨some "sk", none⟩
      [("last_event_id", "evt_7")] [.ok ⟨[], false⟩]).1 = 0 :=
  ⟨rfl, rfl⟩

/-- C6: a configuration missing `figma_api_token` or `team_id` (Figma)
or `stripe_api_key` (Stripe) makes `update` fail with the validation
error immediately: the returned trace is empty — no network fetch, no
upsert and no checkpoint — and the error is `configError`. -/
theorem missing_credentials (parse : String → Option Int) (now : String)
    (tidO tokO : Option String) (sd : Option String)
    (fstate sstate : StateMap) (fapi : Figma.FigmaApi)
    (sapi : List (Except Unit SPage)) :
    Figma.figmaUpdate parse now ⟨none, tidO⟩ fstate fapi =
      ([], some .configError) ∧
    Figma.figmaUpdate parse now ⟨tokO, none⟩ fstate fapi =
      ([], some .configError) ∧
    stripeUpdate parse ⟨none, sd⟩ sstate sapi = ([], some .configError) := by
  refine ⟨?_, ?_, rfl⟩
  · cases tidO <;> rfl
  · cases tokO <;> rfl

lemma stripeParams_drop_bad_date (parse : String → Option Int)
    (k : Option String) (sd : String) (state : StateMap)
    (h : parse sd = none) :
    stripeParams parse ⟨k, some sd⟩ state =
      stripeParams parse ⟨k, none⟩ state := by
  by_cases ht : truthy (List.lookup "last_event_id" state) = true
  · simp [stripeParams, ht]
  · have ht' : truthy (List.lookup "last_event_id" state) = false := by
      simpa using ht
    by_cases hsd : sd = ""
    · simp [stripeParams, ht', hsd]
    · simp [stripeParams, ht', hsd, h]

/-- C7, amended: a malformed configured `start_date` is non-fatal in
the Stripe connector — the parse failure is caught and the run is
identical to one with no start date — but a malformed stored
`last_synced` cursor in the Figma connector is fatal: the uncaught
`ValueError` aborts the run before any operation, see
`malformed_dates_cex`. -/
theorem malformed_dates (parse : String → Option Int) (k : Option String)
    (sd : String) (sstate : StateMap) (sapi : List (Except Unit SPage))
    (now tok tid c : String) (rest : StateMap) (fapi : Figma.FigmaApi)
    (h1 : parse sd = none) (h2 : parse c = none) (hcne : c ≠ "")
    (htok : tok ≠ "") (htid : tid ≠ "") :
    stripeUpdate parse ⟨k, some sd⟩ sstate sapi =
      stripeUpdate parse ⟨k, none⟩ sstate sapi ∧
    Figma.figmaUpdate parse now ⟨some tok, some tid⟩
      (("last_synced", c) :: rest) fapi = ([], some .parseError) := by
  constructor
  · cases k with
    | none => rfl
    | some k' =>
      simp only [stripeUpdate]
      rw [stripeParams_drop_bad_date parse (some k') sd sstate h1]
  · have htt' : (tok == "" || tid == "") = false := by simp [htok, htid]
    have hlk : List.lookup "last_synced" (("last_synced", c) :: rest) =
        some c := by
      simp [List.lookup]
    have hcb : (c == "") = false := by simp [hcne]
    simp [Figma.figmaUpdate, htt', hlk, hcb, h2]

/-- C7, counterexample: the Figma `update` run with the unparseable
stored cursor `"not-a-date"` fails with a parse error and emits
nothing, refuting the claim that malformed-date parse errors are
non-fatal in both connectors. -/
theorem malformed_dates_cex :
    Figma.figmaUpdate parseIntDate "2026-01-01T00:00:00Z"
      ⟨some "t", some "m"⟩ [("last_synced", "not-a-date")]
      ⟨.ok (some []), fun _ => .ok (some [])⟩ = ([], some .parseError) := rfl

/-- C3, amended: re-running with the prior state and no new upstream
data, the Stripe connector emits zero upserts and zero checkpoints (the
empty page short-circuits before any checkpoint), while the Figma
connector with an empty project list emits zero upserts and one
checkpoint whose cursor is the current run time `now`, not the input
cursor.  The original claim — one checkpoint repeating the input cursor
— is refuted by `c3_cex`. -/
theorem no_new_data (parse : String → Option Int) (k : String)
    (sd : Option String) (sstate : StateMap) (b : Bool) (now tok tid c : String)
    (rest : StateMap)
    (filesApi : Option String → Except Unit (Option (List Figma.FFile)))
    (cur : Int) (htok : tok ≠ "") (htid : tid ≠ "") (hc : c ≠ "")
    (hcur : parse c = some cur) :
    opsOf (stripeUpdate parse ⟨some k, sd⟩ sstate [.ok ⟨[], b⟩]).1 = [] ∧
    (stripeUpdate parse ⟨some k, sd⟩ sstate [.ok ⟨[], b⟩]).2 = none ∧
    opsOf (Figma.figmaUpdate parse now ⟨some tok, some tid⟩
      (("last_synced", c) :: rest) ⟨.ok (some []), filesApi⟩).1 =
      [Op.checkpoint [("last_synced", now)]] ∧
    (Figma.figmaUpdate parse now ⟨some tok, some tid⟩
      (("last_synced", c) :: rest) ⟨.ok (some []), filesApi⟩).2 = none := by
  have hloop : stripeLoop [.ok ⟨[], b⟩]
      (stripeParams parse ⟨some k, sd⟩ sstate) sstate none =
      ([Tr.fetch (paramsUrl (stripeParams parse ⟨some k, sd⟩ sstate))],
       sstate, none, none) := by
    simp [stripeLoop]
  have htt' : (tok == "" || tid == "") = false := by simp [htok, htid]
  have hlk : List.lookup "last_synced" (("last_synced", c) :: rest) =
      some c := by
    simp [List.lookup]
  have hcb : (c == "") = false := by simp [hc]
  refine ⟨?_, ?_, ?_, ?_⟩
  · simp [stripeUpdate, hloop, opsOf]
  · simp [stripeUpdate, hloop]
  · simp [Figma.figmaUpdate, htt', hlk, hcb, hcur, Figma.figmaBody,
      Figma.figmaProjects, opsOf]
  · simp [Figma.figmaUpdate, htt', hlk, hcb, hcur, Figma.figmaBody,
      Figma.figmaProjects]

end Stripe

namespace Figma

open Connectors Stripe

/-- C5, counterexample: a Figma projects response whose single project
has no `id` field yields an upsert whose primary-key column is null, so
the unconditional claim that the primary key is present and non-empty
on every API response is false. -/
theorem upsert_pk_cex :
    ((figmaUpdate parseIntDate "2026-01-01T00:00:00Z" ⟨some "t", some "m"⟩
      [] noIdFigmaApi).1.all
        (pkOkTr (figmaSchema ⟨some "t", some "m"⟩))) = false ∧
    upRecords (figmaUpdate parseIntDate "2026-01-01T00:00:00Z"
      ⟨some "t", some "m"⟩ [] noIdFigmaApi).1 =
      [[("id", Value.null), ("name", Value.null)]] :=
  ⟨rfl, rfl⟩

/-- Witness for C4: a stale file (time 5) and a fresh file (time 20)
against the cursor 10. -/
theorem figma_skips_stale_witness :
    ("10" : String) ≠ "" ∧ parseIntDate "10" = some 10 ∧
    parseIntDate "" = none ∧
    ((figmaUpdate parseIntDate "2026-01-01T00:00:00Z"
      ⟨some "t", some "m"⟩ [("last_synced", "10")] goodFigmaApi).1.all
        fun tr => !(staleFileUp parseIntDate 10 tr)) = true := by
  refine ⟨by decide, rfl, rfl, ?_⟩
  exact figma_skips_stale parseIntDate "2026-01-01T00:00:00Z" "t" "m" "10"
    [] goodFigmaApi 10 (by decide) rfl rfl

/-- Witness for C10 at a concrete error-free run. -/
theorem figma_single_checkpoint_witness :
    (figmaUpdate parseIntDate "2026-01-01T00:00:00Z" ⟨some "t", some "m"⟩
      [] quietFigmaApi).2 = none ∧
    ∃ pre, (figmaUpdate parseIntDate "2026-01-01T00:00:00Z"
      ⟨some "t", some "m"⟩ [] quietFigmaApi).1 =
      pre ++ [Tr.op (.checkpoint
        [("last_synced", "2026-01-01T00:00:00Z")])] ∧
      cpCount pre = 0 :=
  ⟨rfl, figma_single_checkpoint parseIntDate "2026-01-01T00:00:00Z"
    ⟨some "t", some "m"⟩ [] quietFigmaApi rfl⟩

end Figma

namespace Stripe

open Connectors

/-- Witness for C1 at a concrete two-page run. -/
theorem stripe_run_checkpoints_witness :
    (∀ p ∈ c1pages, ∃ l, lastId p = some l ∧ l ≠ "") ∧
    ((stripeUpdate parseIntDate ⟨some "sk", none⟩ []
      (mkStripeApi c1pages)).2 = none ∧
     cpCount (stripeUpdate parseIntDate ⟨some "sk", none⟩ []
      (mkStripeApi c1pages)).1 = 3 ∧
     ∃ l, lastCpCursor (stripeUpdate parseIntDate ⟨some "sk", none⟩ []
        (mkStripeApi c1pages)).1 = some l ∧
      lastUpId (stripeUpdate parseIntDate ⟨some "sk", none⟩ []
        (mkStripeApi c1pages)).1 = some (.str l)) := by
  have hg : ∀ p ∈ c1pages, ∃ l, lastId p = some l ∧ l ≠ "" := by
    intro p hp
    simp [c1pages] at hp
    rcases hp with rfl | rfl
    · exact ⟨"evt_2", rfl, by decide⟩
    · exact ⟨"evt_3", rfl, by decide⟩
  exact ⟨hg, stripe_run_checkpoints parseIntDate "sk" none [] c1pages
    (by simp [c1pages]) hg⟩

/-- Witness for C3 at concrete up-to-date states. -/
theorem no_new_data_witness :
    ("t" : String) ≠ "" ∧ ("m" : String) ≠ "" ∧ ("100" : String) ≠ "" ∧
    parseIntDate "100" = some 100 ∧
    (opsOf (stripeUpdate parseIntDate ⟨some "sk", none⟩
      [("last_event_id", "evt_9")] [.ok ⟨[], false⟩]).1 = [] ∧
     (stripeUpdate parseIntDate ⟨some "sk", none⟩
      [("last_event_id", "evt_9")] [.ok ⟨[], false⟩]).2 = none ∧
     opsOf (Figma.figmaUpdate parseIntDate "2026-01-01T00:00:00Z"
      ⟨some "t", some "m"⟩ [("last_synced", "100")]
      ⟨.ok (some []), fun _ => .ok (some [])⟩).1 =
      [Op.checkpoint [("last_synced", "2026-01-01T00:00:00Z")]] ∧
     (Figma.figmaUpdate parseIntDate "2026-01-01T00:00:00Z"
      ⟨some "t", some "m"⟩ [("last_synced", "100")]
      ⟨.ok (some []), fun _ => .ok (some [])⟩).2 = none) :=
  ⟨by decide, by decide, by decide, rfl,
   no_new_data parseIntDate "sk" none [("last_event_id", "evt_9")] false
    "2026-01-01T00:00:00Z" "t" "m" "100" []
    (fun _ => .ok (some [])) 100 (by decide) (by decide) (by decide) rfl⟩

/-- Witness for C7 at the unparseable date string `"bad-date"`. -/
theorem malformed_dates_witness :
    parseIntDate "bad-date" = none ∧ ("bad-date" : String) ≠ "" ∧
    ("t" : String) ≠ "" ∧ ("m" : String) ≠ "" ∧
    (stripeUpdate parseIntDate ⟨some "sk", some "bad-date"⟩ [] [] =
      stripeUpdate parseIntDate ⟨some "sk", none⟩ [] [] ∧
     Figma.figmaUpdate parseIntDate "2026-01-01T00:00:00Z"
      ⟨some "t", some "m"⟩ [("last_synced", "bad-date")] Figma.emptyFigmaApi =
      ([], some .parseError)) :=
  ⟨rfl, by decide, by decide, by decide,
   malformed_dates parseIntDate (some "sk") "bad-date" [] []
    "2026-01-01T00:00:00Z" "t" "m" "bad-date" [] Figma.emptyFigmaApi
    rfl rfl (by decide) (by decide) (by decide)⟩

/-- Witness for C5 at concrete API responses with non-empty keys. -/
theorem upsert_pk_witness :
    (∀ ps, Figma.goodFigmaApi.projects = .ok (some ps) →
      ∀ p ∈ ps, ∃ s, p.id = some s ∧ s ≠ "") ∧
    (∀ pid fl, Figma.goodFigmaApi.files pid = .ok (some fl) →
      ∀ f ∈ fl, ∃ s, f.key = some s ∧ s ≠ "") ∧
    (∀ pg e, Except.ok pg ∈ c2api → e ∈ pg.data → e.id ≠ "") ∧
    (((Figma.figmaUpdate parseIntDate "2026-01-01T00:00:00Z"
        ⟨some "t", some "m"⟩ [] Figma.goodFigmaApi).1.all
      (pkOkTr (Figma.figmaSchema ⟨some "t", some "m"⟩))) = true ∧
     ((stripeUpdate parseIntDate ⟨some "sk", none⟩ c2state c2api).1.all
      (pkOkTr (stripeSchema ⟨some "sk", none⟩))) = true) := by
  have hp : ∀ ps, Figma.goodFigmaApi.projects = .ok (some ps) →
      ∀ p ∈ ps, ∃ s, p.id = some s ∧ s ≠ "" := by
    intro ps hps p hp
    have : some [Figma.fProj1] = some ps := Except.ok.inj hps
    obtain rfl : [Figma.fProj1] = ps := Option.some.inj this
    simp at hp
    subst hp
    exact ⟨"p1", rfl, by decide⟩
  have hf : ∀ pid fl, Figma.goodFigmaApi.files pid = .ok (some fl) →
      ∀ f ∈ fl, ∃ s, f.key = some s ∧ s ≠ "" := by
    intro pid fl hfl f hfm
    have : some [Figma.fFileStale, Figma.fFileFresh] = some fl :=
      Except.ok.inj hfl
    obtain rfl : [Figma.fFileStale, Figma.fFileFresh] = fl :=
      Option.some.inj this
    simp at hfm
    rcases hfm with rfl | rfl
    · exact ⟨"k1", rfl, by decide⟩
    · exact ⟨"k2", rfl, by decide⟩
  have hs : ∀ pg e, Except.ok pg ∈ c2api → e ∈ pg.data → e.id ≠ "" := by
    intro pg e hpg he
    simp [c2api] at hpg
    subst hpg
    simp [mkEvent] at he
    rcases he with rfl | rfl <;> decide
  exact ⟨hp, hf, hs, upsert_pk parseIntDate "2026-01-01T00:00:00Z"
    ⟨some "t", some "m"⟩ [] Figma.goodFigmaApi ⟨some "sk", none⟩ c2state
    c2api hp hf hs⟩

end Stripe
